import Mathlib

/-!
Verification of the vidgrid repository (src/main.rs, src/options.rs).

The program probes four input videos for frame rate and duration with
ffprobe, plans a 2x2 grid (capped frame rate, clamped output duration,
halved cell dimensions), builds an ffmpeg filter-graph expression, and
invokes ffmpeg.

Modelling conventions:
- Rust f64 values are modelled by the inductive `FV`: exact rationals for
  finite values plus the special values nan, inf, -inf.  All f64
  operations the program performs (max, comparison, division, floor,
  saturating cast to u32) are defined on `FV` following IEEE-754 and Rust
  cast semantics.  Where f64 would round a parsed decimal to the nearest
  double, the model keeps the exact rational; every claim checked here is
  insensitive to that rounding.
- Rust u32 values are modelled by Nat (the program performs no u32
  arithmetic that can overflow: only max, comparison and division by 2).
- Strings are Lean Strings; scanning (trim, split on a slash, float
  grammar) is implemented on List Char with structurally recursive
  functions so that all definitions are executable and kernel-reducible.
- Subprocess effects are modelled by an environment `Env` giving the
  outcome of each external invocation, and the orchestration function
  returns the list of invocations it performed, in order.
-/

namespace Vidgrid

/-- Model of a Rust f64 value: a finite (exact) rational, NaN, or a signed
infinity. -/
inductive FV where
  | fin (q : ℚ)
  | nan
  | inf
  | ninf
  deriving DecidableEq

/-- Rust f64 max semantics (`f64::max`): if one argument is NaN the other
is returned; infinities compare in the usual order. -/
def fvMax (a b : FV) : FV :=
  match a, b with
  | .nan, b => b
  | a, .nan => a
  | .fin x, .fin y => .fin (max x y)
  | .inf, _ => .inf
  | _, .inf => .inf
  | .ninf, b => b
  | a, .ninf => a

/-- IEEE-754 strict greater-than on f64 values (false whenever an operand
is NaN). -/
def fvGt (a b : FV) : Bool :=
  match a, b with
  | .nan, _ => false
  | _, .nan => false
  | .fin x, .fin y => decide (y < x)
  | .inf, .inf => false
  | .inf, _ => true
  | _, .inf => false
  | .ninf, _ => false
  | .fin _, .ninf => true

/-- IEEE-754 equality comparison against 0.0 (NaN == 0.0 is false). -/
def fvEqZero (a : FV) : Bool :=
  match a with
  | .fin q => decide (q = 0)
  | _ => false

/-- IEEE-754 division on f64 values, used for rational frame-rate strings
"N/D".  The zero-denominator case is guarded before this is reached in
the program, but the model is total. -/
def fvDiv (a b : FV) : FV :=
  match a, b with
  | .nan, _ => .nan
  | _, .nan => .nan
  | .fin x, .fin y =>
      if y = 0 then (if x = 0 then .nan else if 0 < x then .inf else .ninf)
      else .fin (x / y)
  | .inf, .fin y => if y < 0 then .ninf else .inf
  | .ninf, .fin y => if y < 0 then .inf else .ninf
  | .fin _, .inf => .fin 0
  | .fin _, .ninf => .fin 0
  | .inf, .inf => .nan
  | .inf, .ninf => .nan
  | .ninf, .inf => .nan
  | .ninf, .ninf => .nan

/-- Rust `f64::floor` (identity on NaN and infinities). -/
def fvFloor (a : FV) : FV :=
  match a with
  | .fin q => .fin (⌊q⌋ : ℤ)
  | v => v

/-- Rust saturating cast `as u32`: rounds toward zero, negative values and
NaN give 0, values at or above 2^32 give u32::MAX. -/
def fvAsU32 (a : FV) : Nat :=
  match a with
  | .fin q => min (⌊q⌋).toNat (2 ^ 32 - 1)
  | .nan => 0
  | .inf => 2 ^ 32 - 1
  | .ninf => 0

/- ### Character-level string scanning (kernel-reducible replacements for
String.trim / str::split, with the same observable behaviour on the
strings this program handles) -/

/-- Leading- and trailing-whitespace removal on a character list; model of
Rust `str::trim` as applied by both probe helpers. -/
def trimChars (l : List Char) : List Char :=
  ((l.dropWhile Char.isWhitespace).reverse.dropWhile Char.isWhitespace).reverse

/-- Split a character list on the separator `'/'`; model of Rust
`split('/').collect::<Vec<_>>()` (empty parts are preserved). -/
def splitSlash : List Char → List (List Char)
  | [] => [[]]
  | c :: rest =>
    if c = '/' then [] :: splitSlash rest
    else
      match splitSlash rest with
      | [] => [[c]]
      | g :: gs => (c :: g) :: gs

/- ### Model of f64::from_str (exact-rational semantics)

Grammar implemented (after the sign): "inf" | "infinity" | "nan"
(case-insensitively), or a decimal `Digits [. Digits?] [Exp]` /
`. Digits [Exp]` with `Exp ::= (e|E) [+|-] Digits`.  This is the grammar
Rust documents for f64::from_str; the model returns the exact rational
value instead of the nearest double. -/

/-- Value of a digit list read most-significant first. -/
def digitsVal (l : List Char) : Nat :=
  l.foldl (fun a c => a * 10 + (c.toNat - 48)) 0

/-- Exact rational assembled from an integer mantissa sign, the mantissa
digits value, the count of fraction digits, and a signed decimal
exponent. -/
def decValue (neg : Bool) (m : Nat) (k : Nat) (e : ℤ) : ℚ :=
  (if neg then -(m : ℚ) else (m : ℚ)) / 10 ^ k * 10 ^ (e : ℤ)

/-- Parse the optional exponent suffix; the input must be empty or a full
well-formed exponent. -/
def parseExpPart : List Char → Option ℤ
  | [] => some 0
  | c :: rest =>
    if c = 'e' ∨ c = 'E' then
      match rest with
      | '+' :: ds => if ds ≠ [] ∧ ds.all Char.isDigit then some (digitsVal ds) else none
      | '-' :: ds => if ds ≠ [] ∧ ds.all Char.isDigit then some (-(digitsVal ds : ℤ)) else none
      | ds => if ds ≠ [] ∧ ds.all Char.isDigit then some (digitsVal ds) else none
    else none

/-- Parse an unsigned decimal (mantissa with optional fraction and
exponent) to its exact value; `neg` records the already-consumed sign. -/
def parseDec (neg : Bool) (l : List Char) : Option FV :=
  let intPart := l.takeWhile Char.isDigit
  let rest := l.dropWhile Char.isDigit
  match rest with
  | '.' :: rest2 =>
    let fracPart := rest2.takeWhile Char.isDigit
    let rest3 := rest2.dropWhile Char.isDigit
    if intPart = [] ∧ fracPart = [] then none
    else
      match parseExpPart rest3 with
      | some e =>
          some (.fin (decValue neg (digitsVal (intPart ++ fracPart)) fracPart.length e))
      | none => none
  | _ =>
    if intPart = [] then none
    else
      match parseExpPart rest with
      | some e => some (.fin (decValue neg (digitsVal intPart) 0 e))
      | none => none

/-- Parse the body after the sign: special values or a decimal. -/
def parseBody (neg : Bool) (l : List Char) : Option FV :=
  let low := l.map Char.toLower
  if low = ['i', 'n', 'f'] ∨ low = ['i', 'n', 'f', 'i', 'n', 'i', 't', 'y'] then
    some (if neg then .ninf else .inf)
  else if low = ['n', 'a', 'n'] then some .nan
  else parseDec neg l

/-- Model of Rust `f64::from_str` on a character list. -/
def parseF64Chars (l : List Char) : Option FV :=
  match l with
  | '+' :: rest => parseBody false rest
  | '-' :: rest => parseBody true rest
  | _ => parseBody false l

/-- Model of Rust `f64::from_str` on a String. -/
def parse_f64 (s : String) : Option FV :=
  parseF64Chars s.data

/- ### Probe adapter (src/main.rs get_video_framerate, get_video_duration)

Both helpers are modelled from the point at which the ffprobe subprocess
has produced an exit status and stdout text: `status_ok` is
`output.status.success()` and `stdout` the decoded stdout.  Spawn
failures and invalid utf8 are handled at the orchestration layer (Env). -/

/-- Translation of get_video_framerate (src/main.rs lines 10-49) from the
point after the subprocess call: check exit status, trim stdout, split
rational "N/D" forms on the slash, reject a zero denominator, parse plain
numbers directly.  Rust propagates f64 parse failures as a
ParseFloatError whose message is "invalid float literal". -/
def get_video_framerate (status_ok : Bool) (stdout path : String) :
    Except String FV :=
  match status_ok with
  | false => .error ("ffprobe failed for " ++ path)
  | true =>
    let fps_chars := trimChars stdout.data
    if fps_chars.contains '/' then
      match splitSlash fps_chars with
      | [a, b] =>
        match parseF64Chars a with
        | none => .error "invalid float literal"
        | some numerator =>
          match parseF64Chars b with
          | none => .error "invalid float literal"
          | some denominator =>
            if fvEqZero denominator then
              .error ("Invalid frame rate denominator in " ++ path)
            else .ok (fvDiv numerator denominator)
      | _ => .error ("Invalid frame rate format: " ++ List.asString fps_chars)
    else
      match parseF64Chars fps_chars with
      | none => .error "invalid float literal"
      | some v => .ok v

/-- Translation of get_video_duration (src/main.rs lines 52-74) from the
point after the subprocess call: check exit status, trim stdout, parse as
f64, floor, and cast to u32 (saturating). -/
def get_video_duration (status_ok : Bool) (stdout path : String) :
    Except String Nat :=
  match status_ok with
  | false => .error ("ffprobe failed for " ++ path)
  | true =>
    match parseF64Chars (trimChars stdout.data) with
    | none => .error "invalid float literal"
    | some dur_f64 => .ok (fvAsU32 (fvFloor dur_f64))

/- ### Grid planner (src/main.rs lines 144-170) -/

/-- Capped maximum frame rate (src/main.rs lines 144-150): f64 max of the
four probed rates, then replaced by the cap when strictly above it. -/
def max_input_fps (fps1 fps2 fps3 fps4 max_framerate : FV) : FV :=
  let m := fvMax (fvMax (fvMax fps1 fps2) fps3) fps4
  if fvGt m max_framerate then max_framerate else m

/-- Maximum input duration (src/main.rs line 159). -/
def max_input_duration (dur1 dur2 dur3 dur4 : Nat) : Nat :=
  max (max (max dur1 dur2) dur3) dur4

/-- Output duration (src/main.rs lines 162-166): the requested duration if
it is below the maximum input duration, otherwise that maximum. -/
def output_duration (duration maxInDur : Nat) : Nat :=
  if duration < maxInDur then duration else maxInDur

/-- Per-cell width (src/main.rs line 169): truncating division by 2. -/
def video_width (output_width : Nat) : Nat := output_width / 2

/-- Per-cell height (src/main.rs line 170): truncating division by 2. -/
def video_height (output_height : Nat) : Nat := output_height / 2

/- ### Filter graph builder (src/main.rs lines 172-204) -/

/-- The scale-and-pad filter template (src/main.rs lines 173-177), with
the cell dimensions rendered in decimal as Rust format! does. -/
def scale_pad (video_width video_height : Nat) : String :=
  "scale=" ++ Nat.repr video_width ++ ":" ++ Nat.repr video_height ++
    ":force_original_aspect_ratio=decrease,pad=" ++ Nat.repr video_width ++ ":" ++
    Nat.repr video_height ++ ":(ow-iw)/2:(oh-ih)/2"

/-- The four (input stream, cell label) pairs (src/main.rs lines 179-184). -/
def videos : List (String × String) :=
  [("0:v", "vid1"), ("1:v", "vid2"), ("2:v", "vid3"), ("3:v", "vid4")]

/-- One per-cell filter segment (src/main.rs lines 188-197).  The frame
rate is received already rendered to text, since Rust renders the f64
with Display inside the format! call. -/
def cell_filter (sp fps_str input label : String) : String :=
  "[" ++ input ++ "]" ++ sp ++ ",setpts=PTS-STARTPTS,fps=fps=" ++ fps_str ++
    ",fifo[" ++ label ++ "];"

/-- The ordered segment list (src/main.rs lines 185-202): four per-cell
segments, two horizontal stacks, one vertical stack. -/
def filters (video_width video_height : Nat) (fps_str : String) : List String :=
  videos.map
      (fun iv => cell_filter (scale_pad video_width video_height) fps_str iv.1 iv.2) ++
    ["[vid1][vid2]hstack=inputs=2[top];",
      "[vid3][vid4]hstack=inputs=2[bottom];",
      "[top][bottom]vstack=inputs=2[final]"]

/-- Model of Rust `Vec::join(" ")`. -/
def joinSpace : List String → String
  | [] => ""
  | [s] => s
  | s :: rest => s ++ " " ++ joinSpace rest

/-- The joined filter expression (src/main.rs line 204). -/
def filter_complex (video_width video_height : Nat) (fps_str : String) : String :=
  joinSpace (filters video_width video_height fps_str)

/- ### Orchestration (create_video_grid, src/main.rs lines 127-233)

External effects are supplied by an `Env`; the function returns the list
of subprocess invocations it performed, in order, and its result. -/

/-- One external invocation performed by create_video_grid. -/
inductive Call where
  | ffprobeFps (i : Fin 4)
  | ffprobeDur (i : Fin 4)
  | ffmpeg (filter : String) (t : Nat)
  deriving DecidableEq

/-- Outcomes of the external world: for each input index, the result of
spawning ffprobe (error = the spawn or utf8 failure propagated by the ?
operator; ok = exit-status flag and stdout text), display strings for the
four paths, the platform rendering of an f64 (Rust Display, used inside
the filter expression), and whether the ffmpeg invocation exits
successfully. -/
structure Env where
  fpsProbe : Fin 4 → Except String (Bool × String)
  durProbe : Fin 4 → Except String (Bool × String)
  paths : Fin 4 → String
  fpsRender : FV → String
  ffmpegOk : Bool

/-- The framerate probe of input i as create_video_grid sees it. -/
def run_framerate (env : Env) (i : Fin 4) : Except String FV :=
  match env.fpsProbe i with
  | .error e => .error e
  | .ok (st, out) => get_video_framerate st out (env.paths i)

/-- The duration probe of input i as create_video_grid sees it. -/
def run_duration (env : Env) (i : Fin 4) : Except String Nat :=
  match env.durProbe i with
  | .error e => .error e
  | .ok (st, out) => get_video_duration st out (env.paths i)

/-- Translation of create_video_grid (src/main.rs lines 127-233): probe
the four frame rates, probe the four durations (each ? propagating the
first error), compute the plan, build the filter expression, and invoke
ffmpeg with the computed duration cap.  The returned list records every
subprocess invocation performed, in program order. -/
def create_video_grid (env : Env) (duration output_width output_height : Nat)
    (max_framerate : FV) : List Call × Except String Unit :=
  match run_framerate env 0 with
  | .error e => ([.ffprobeFps 0], .error e)
  | .ok fps1 =>
  match run_framerate env 1 with
  | .error e => ([.ffprobeFps 0, .ffprobeFps 1], .error e)
  | .ok fps2 =>
  match run_framerate env 2 with
  | .error e => ([.ffprobeFps 0, .ffprobeFps 1, .ffprobeFps 2], .error e)
  | .ok fps3 =>
  match run_framerate env 3 with
  | .error e => ([.ffprobeFps 0, .ffprobeFps 1, .ffprobeFps 2, .ffprobeFps 3], .error e)
  | .ok fps4 =>
  match run_duration env 0 with
  | .error e =>
      ([.ffprobeFps 0, .ffprobeFps 1, .ffprobeFps 2, .ffprobeFps 3, .ffprobeDur 0], .error e)
  | .ok dur1 =>
  match run_duration env 1 with
  | .error e =>
      ([.ffprobeFps 0, .ffprobeFps 1, .ffprobeFps 2, .ffprobeFps 3, .ffprobeDur 0,
        .ffprobeDur 1], .error e)
  | .ok dur2 =>
  match run_duration env 2 with
  | .error e =>
      ([.ffprobeFps 0, .ffprobeFps 1, .ffprobeFps 2, .ffprobeFps 3, .ffprobeDur 0,
        .ffprobeDur 1, .ffprobeDur 2], .error e)
  | .ok dur3 =>
  match run_duration env 3 with
  | .error e =>
      ([.ffprobeFps 0, .ffprobeFps 1, .ffprobeFps 2, .ffprobeFps 3, .ffprobeDur 0,
        .ffprobeDur 1, .ffprobeDur 2, .ffprobeDur 3], .error e)
  | .ok dur4 =>
    let fps := max_input_fps fps1 fps2 fps3 fps4 max_framerate
    let maxInDur := max_input_duration dur1 dur2 dur3 dur4
    let outDur := output_duration duration maxInDur
    let vw := video_width output_width
    let vh := video_height output_height
    let fc := filter_complex vw vh (env.fpsRender fps)
    ([.ffprobeFps 0, .ffprobeFps 1, .ffprobeFps 2, .ffprobeFps 3, .ffprobeDur 0,
      .ffprobeDur 1, .ffprobeDur 2, .ffprobeDur 3, .ffmpeg fc outDur],
      if env.ffmpegOk then .ok () else .error "ffmpeg command failed")

/-- The first probe failure in program order (frame rates of inputs 1-4,
then durations of inputs 1-4), if any. -/
def firstProbeError (env : Env) : Option String :=
  match run_framerate env 0 with
  | .error e => some e
  | .ok _ =>
  match run_framerate env 1 with
  | .error e => some e
  | .ok _ =>
  match run_framerate env 2 with
  | .error e => some e
  | .ok _ =>
  match run_framerate env 3 with
  | .error e => some e
  | .ok _ =>
  match run_duration env 0 with
  | .error e => some e
  | .ok _ =>
  match run_duration env 1 with
  | .error e => some e
  | .ok _ =>
  match run_duration env 2 with
  | .error e => some e
  | .ok _ =>
  match run_duration env 3 with
  | .error e => some e
  | .ok _ => none

/- ### CLI surface (src/options.rs) -/

/-- Translation of the Args struct actually declared in src/options.rs:
its full field list.  Note that it has no max_framerate field and no open
field. -/
structure Args where
  in1 : String
  in2 : String
  in3 : String
  in4 : String
  width : Nat
  height : Nat
  duration : Nat
  output_path : String

/-- The field names of Args, in declaration order (src/options.rs lines
5-42). -/
def argsFieldNames : List String :=
  ["in1", "in2", "in3", "in4", "width", "height", "duration", "output_path"]

/-- The Args value produced by clap when only the four required input
flags are given: the declared default values of the optional flags
(src/options.rs lines 23, 27, 31, 38). -/
def defaultArgs (i1 i2 i3 i4 : String) : Args :=
  { in1 := i1, in2 := i2, in3 := i3, in4 := i4,
    width := 1920, height := 1080, duration := 15, output_path := "output.mp4" }

/-- The fields of args that main (src/main.rs lines 238-251) reads, in
order of use. -/
def mainFieldReads : List String :=
  ["in1", "in2", "in3", "in4", "duration", "width", "height", "max_framerate",
    "output_path", "open"]

/- ### Substring-occurrence counting (analysis vocabulary for the filter
expression; not part of the program) -/

/-- Boolean prefix test on character lists. -/
def begWith : List Char → List Char → Bool
  | [], _ => true
  | _ :: _, [] => false
  | p :: ps, c :: cs => p == c && begWith ps cs

/-- Number of (possibly overlapping) occurrences of the pattern in the
list: the number of suffixes the pattern begins. -/
def countOcc (pat : List Char) : List Char → Nat
  | [] => 0
  | c :: rest => (if begWith pat (c :: rest) then 1 else 0) + countOcc pat rest

/-- A pattern sees through a nonempty infix none of whose characters it
contains: the prefix test cannot cross into the infix. -/
lemma begWith_append_mid (pat a m b : List Char) (hm : m ≠ [])
    (hd : ∀ c ∈ m, c ∉ pat) :
    begWith pat (a ++ (m ++ b)) = begWith pat a := by
  induction a generalizing pat with
  | nil =>
    cases pat with
    | nil => rfl
    | cons p ps =>
      cases m with
      | nil => exact absurd rfl hm
      | cons m0 m' =>
        have hm0 : m0 ∉ p :: ps := hd m0 (by simp)
        have hne : (p == m0) = false := by
          apply beq_eq_false_iff_ne.mpr
          intro hpe
          apply hm0
          rw [← hpe]
          exact List.mem_cons_self p ps
        simp [begWith, hne]
  | cons x a' ih =>
    cases pat with
    | nil => rfl
    | cons p ps =>
      show (p == x && begWith ps (a' ++ (m ++ b))) = (p == x && begWith ps a')
      rw [ih ps (fun c hc hmem => hd c hc (List.mem_cons_of_mem _ hmem))]

/-- A nonempty prefix none of whose characters the pattern contains adds
no occurrences. -/
lemma countOcc_disjoint_pre (pat m b : List Char) (hpat : pat ≠ [])
    (hd : ∀ c ∈ m, c ∉ pat) :
    countOcc pat (m ++ b) = countOcc pat b := by
  induction m with
  | nil => rfl
  | cons c m' ih =>
    show (if begWith pat (c :: (m' ++ b)) = true then 1 else 0) + countOcc pat (m' ++ b) =
      countOcc pat b
    have hbw : begWith pat (c :: (m' ++ b)) = false := by
      cases pat with
      | nil => exact absurd rfl hpat
      | cons p ps =>
        have hc : c ∉ p :: ps := hd c (by simp)
        have hne : (p == c) = false := by
          apply beq_eq_false_iff_ne.mpr
          intro hpe
          apply hc
          rw [← hpe]
          exact List.mem_cons_self p ps
        simp [begWith, hne]
    rw [hbw, ih (fun c hc => hd c (List.mem_cons_of_mem _ hc))]
    simp

/-- Occurrences split around a nonempty infix disjoint from the pattern:
they lie entirely in the part before it or entirely in the part after
it. -/
lemma countOcc_append_mid (pat a m b : List Char) (hpat : pat ≠ []) (hm : m ≠ [])
    (hd : ∀ c ∈ m, c ∉ pat) :
    countOcc pat (a ++ (m ++ b)) = countOcc pat a + countOcc pat b := by
  induction a with
  | nil =>
    simp only [List.nil_append]
    rw [countOcc_disjoint_pre pat m b hpat hd]
    simp [countOcc]
  | cons x a' ih =>
    show (if begWith pat (x :: (a' ++ (m ++ b))) = true then 1 else 0) +
        countOcc pat (a' ++ (m ++ b)) =
      (if begWith pat (x :: a') = true then 1 else 0) + countOcc pat a' + countOcc pat b
    have hb : begWith pat (x :: (a' ++ (m ++ b))) = begWith pat (x :: a') := by
      have h := begWith_append_mid pat (x :: a') m b hm hd
      simpa using h
    rw [hb, ih]
    omega

/- ### Mixed literal/parameter strings

The filter expression interleaves fixed text with rendered numbers (cell
dimensions, frame rate).  A Piece is one such fragment; a piece list
renders to the character stream, and mergedRuns gives its maximal
literal runs (the parameter fragments acting as separators). -/

/-- One fragment of the filter expression: fixed text or a rendered
parameter. -/
inductive Piece where
  | lit (s : String)
  | num (s : String)

/-- The character stream of a piece list. -/
def renderPieces : List Piece → List Char
  | [] => []
  | .lit s :: r => s.data ++ renderPieces r
  | .num s :: r => s.data ++ renderPieces r

/-- The maximal literal runs of a piece list, in order; parameter pieces
separate runs. -/
def mergedRuns : List Piece → List (List Char)
  | [] => [[]]
  | .lit s :: r =>
    match mergedRuns r with
    | run :: runs => (s.data ++ run) :: runs
    | [] => [s.data]
  | .num _ :: r => [] :: mergedRuns r

lemma mergedRuns_ne_nil (ps : List Piece) : mergedRuns ps ≠ [] := by
  cases ps with
  | nil => simp [mergedRuns]
  | cons p r =>
    cases p with
    | lit s =>
      simp only [mergedRuns]
      cases mergedRuns r <;> simp
    | num s => simp [mergedRuns]

/-- When every parameter piece is nonempty and disjoint from the pattern,
occurrences in the rendered stream are exactly the occurrences inside
the literal runs (prefixed by an arbitrary literal context A). -/
lemma countOcc_renderPieces_aux (pat : List Char) (hpat : pat ≠ [])
    (ps : List Piece)
    (hnum : ∀ s, Piece.num s ∈ ps → s.data ≠ [] ∧ ∀ c ∈ s.data, c ∉ pat) :
    ∀ A : List Char,
      countOcc pat (A ++ renderPieces ps) =
        countOcc pat (A ++ (mergedRuns ps).headI) + ((mergedRuns ps).tail.map (countOcc pat)).sum := by
  induction ps with
  | nil =>
    intro A
    simp [renderPieces, mergedRuns]
  | cons p r ih =>
    intro A
    cases p with
    | lit s =>
      have ih' := ih (fun t ht => hnum t (List.mem_cons_of_mem _ ht)) (A ++ s.data)
      rcases hmr : mergedRuns r with _ | ⟨run, runs⟩
      · exact absurd hmr (mergedRuns_ne_nil r)
      · rw [hmr] at ih'
        simp only [List.headI, List.tail] at ih'
        simp only [renderPieces, mergedRuns, hmr, List.headI, List.tail]
        rw [← List.append_assoc, ← List.append_assoc]
        exact ih'
    | num s =>
      have hs := hnum s (List.mem_cons_self _ _)
      have ih' := ih (fun t ht => hnum t (List.mem_cons_of_mem _ ht)) ([] : List Char)
      simp only [List.nil_append] at ih'
      simp only [renderPieces, mergedRuns, List.headI, List.tail]
      rw [countOcc_append_mid pat A s.data (renderPieces r) hpat hs.1 hs.2, ih']
      rcases hmr : mergedRuns r with _ | ⟨run, runs⟩
      · exact absurd hmr (mergedRuns_ne_nil r)
      · simp only [List.headI, List.tail, List.map, List.sum_cons, List.append_nil]

/-- Occurrence counting over a rendered piece list equals the sum over
its literal runs. -/
lemma countOcc_renderPieces (pat : List Char) (hpat : pat ≠ [])
    (ps : List Piece)
    (hnum : ∀ s, Piece.num s ∈ ps → s.data ≠ [] ∧ ∀ c ∈ s.data, c ∉ pat) :
    countOcc pat (renderPieces ps) = ((mergedRuns ps).map (countOcc pat)).sum := by
  have h := countOcc_renderPieces_aux pat hpat ps hnum []
  simp only [List.nil_append] at h
  rcases hmr : mergedRuns ps with _ | ⟨run, runs⟩
  · exact absurd hmr (mergedRuns_ne_nil ps)
  · rw [hmr] at h
    simp only [List.headI, List.tail] at h
    rw [h]
    simp

/- ### Digit facts about Nat.repr (the rendering format! applies to the
cell dimensions) -/

lemma digitChar_isDigit : ∀ m, m < 10 → (Nat.digitChar m).isDigit = true := by decide

lemma toDigitsCore_digits (fuel : Nat) :
    ∀ (n : Nat) (ds : List Char), (∀ c ∈ ds, c.isDigit = true) →
      ∀ c ∈ Nat.toDigitsCore 10 fuel n ds, c.isDigit = true := by
  induction fuel with
  | zero =>
    intro n ds hds c hc
    rw [Nat.toDigitsCore] at hc
    exact hds c hc
  | succ fuel ih =>
    intro n ds hds c hc
    rw [Nat.toDigitsCore] at hc
    split at hc
    · cases hc with
      | head => exact digitChar_isDigit _ (Nat.mod_lt _ (by norm_num))
      | tail b h => exact hds c h
    · refine ih (n / 10) _ ?_ c hc
      intro c' hc'
      cases hc' with
      | head => exact digitChar_isDigit _ (Nat.mod_lt _ (by norm_num))
      | tail b h => exact hds c' h

/-- Every character of the decimal rendering of a natural number is a
digit. -/
lemma natRepr_digits (n : Nat) : ∀ c ∈ (Nat.repr n).data, c.isDigit = true := by
  intro c hc
  exact toDigitsCore_digits (n + 1) n [] (by simp) c hc

lemma toDigitsCore_ne_nil_of_ds (fuel : Nat) :
    ∀ (n : Nat) (ds : List Char), ds ≠ [] → Nat.toDigitsCore 10 fuel n ds ≠ [] := by
  induction fuel with
  | zero =>
    intro n ds h
    rw [Nat.toDigitsCore]
    exact h
  | succ fuel ih =>
    intro n ds h
    rw [Nat.toDigitsCore]
    split
    · simp
    · exact ih (n / 10) _ (by simp)

/-- The decimal rendering of a natural number is never empty. -/
lemma natRepr_ne_nil (n : Nat) : (Nat.repr n).data ≠ [] := by
  show Nat.toDigitsCore 10 (n + 1) n [] ≠ []
  rw [Nat.toDigitsCore]
  split
  · simp
  · exact toDigitsCore_ne_nil_of_ds n (n / 10) _ (by simp)

/- ### Stream labels of a filter segment (analysis vocabulary: the labels
a segment reads are its leading bracket groups, the labels it writes are
its trailing bracket groups) -/

/-- Collect the leading bracket groups of a character list: the mode
records whether we are inside a group. -/
def lgo : Bool → List Char → List Char → List (List Char)
  | _, [], _ => []
  | false, c :: rest, _ => if c = '[' then lgo true rest [] else []
  | true, c :: rest, cur =>
    if c = ']' then cur.reverse :: lgo false rest [] else lgo true rest (c :: cur)

/-- The stream labels a filter segment reads: its leading bracket
groups. -/
def segReads (s : String) : List String :=
  (lgo false s.data []).map List.asString

/-- Drop one trailing-semicolon marker (the reversed list starts with it
for all but the last segment). -/
def dropSemi : List Char → List Char
  | [] => []
  | c :: t => if c = ';' then t else c :: t

/-- Collect the leading bracket groups of a reversed character list. -/
def wgo : Bool → List Char → List Char → List (List Char)
  | _, [], _ => []
  | false, c :: rest, _ => if c = ']' then wgo true rest [] else []
  | true, c :: rest, cur =>
    if c = '[' then cur :: wgo false rest [] else wgo true rest (c :: cur)

/-- The stream labels a filter segment writes: its trailing bracket
groups (before the segment separator). -/
def segWrites (s : String) : List String :=
  ((wgo false (dropSemi s.data.reverse) []).reverse).map List.asString

/- ### Helper lemmas -/

/-- On finite values, the f64 max of the program coincides with the
rational max. -/
lemma fvMax_fin (a b : ℚ) : fvMax (.fin a) (.fin b) = .fin (max a b) := rfl

/-- On finite values the capped maximum frame rate is exactly
min(max of the four rates, cap). -/
lemma max_input_fps_fin (q1 q2 q3 q4 c : ℚ) :
    max_input_fps (.fin q1) (.fin q2) (.fin q3) (.fin q4) (.fin c) =
      .fin (min (max (max (max q1 q2) q3) q4) c) := by
  unfold max_input_fps
  rw [fvMax_fin, fvMax_fin, fvMax_fin]
  rcases le_or_lt (max (max (max q1 q2) q3) q4) c with h | h
  · rw [min_eq_left h, if_neg]
    simp only [fvGt, decide_eq_true_eq]
    exact fun hc => absurd h (not_le.mpr hc)
  · rw [min_eq_right h.le, if_pos]
    simp only [fvGt, decide_eq_true_eq]
    exact h

/- ### Decomposition of the filter expression into pieces -/

/-- The pieces of one per-cell segment, at the granularity of the
format! template of src/main.rs lines 173-196. -/
def cellPieces (input label : String) (vw vh : Nat) (f : String) : List Piece :=
  [.lit "[", .lit input, .lit "]", .lit "scale=", .num (Nat.repr vw), .lit ":",
    .num (Nat.repr vh), .lit ":force_original_aspect_ratio=decrease,pad=",
    .num (Nat.repr vw), .lit ":", .num (Nat.repr vh), .lit ":(ow-iw)/2:(oh-ih)/2",
    .lit ",setpts=PTS-STARTPTS,fps=fps=", .num f, .lit ",fifo[", .lit label, .lit "];"]

/-- The pieces of the whole joined filter expression. -/
def fcPieces (vw vh : Nat) (f : String) : List Piece :=
  cellPieces "0:v" "vid1" vw vh f ++ [.lit " "] ++
    cellPieces "1:v" "vid2" vw vh f ++ [.lit " "] ++
    cellPieces "2:v" "vid3" vw vh f ++ [.lit " "] ++
    cellPieces "3:v" "vid4" vw vh f ++
    [.lit
      " [vid1][vid2]hstack=inputs=2[top]; [vid3][vid4]hstack=inputs=2[bottom]; [top][bottom]vstack=inputs=2[final]"]

set_option maxHeartbeats 1000000 in
/-- The filter expression is the rendering of its piece list. -/
lemma filter_complex_data (vw vh : Nat) (f : String) :
    (filter_complex vw vh f).data = renderPieces (fcPieces vw vh f) := by
  simp [filter_complex, filters, videos, joinSpace, cell_filter, scale_pad, fcPieces,
    cellPieces, renderPieces, String.data_append, List.append_assoc]

/-- The only parameter pieces of the filter expression are the two cell
dimensions and the rendered frame rate. -/
lemma fcPieces_num_mem (vw vh : Nat) (f s : String)
    (h : Piece.num s ∈ fcPieces vw vh f) :
    s = Nat.repr vw ∨ s = Nat.repr vh ∨ s = f := by
  simp [fcPieces, cellPieces] at h
  tauto

/-- For a pattern free of digits and dots, every parameter piece of the
filter expression is nonempty and disjoint from it (given that the
rendered frame rate consists of digits and dots only). -/
lemma fcPieces_num_ok (vw vh : Nat) (f : String)
    (hf : ∀ c ∈ f.data, c.isDigit = true ∨ c = '.') (hfne : f.data ≠ [])
    (pat : List Char) (hp : ∀ c ∈ pat, c.isDigit = false ∧ c ≠ '.') :
    ∀ s, Piece.num s ∈ fcPieces vw vh f → s.data ≠ [] ∧ ∀ c ∈ s.data, c ∉ pat := by
  intro s hs
  have hdisj : ∀ c : Char, (c.isDigit = true ∨ c = '.') → c ∉ pat := by
    intro c hc hmem
    rcases hp c hmem with ⟨h1, h2⟩
    rcases hc with h | h
    · rw [h1] at h
      exact Bool.noConfusion h
    · exact h2 h
  rcases fcPieces_num_mem vw vh f s hs with rfl | rfl | rfl
  · exact ⟨natRepr_ne_nil vw, fun c hc => hdisj c (Or.inl (natRepr_digits vw c hc))⟩
  · exact ⟨natRepr_ne_nil vh, fun c hc => hdisj c (Or.inl (natRepr_digits vh c hc))⟩
  · exact ⟨hfne, fun c hc => hdisj c (hf c hc)⟩

/-- Occurrence counting in the filter expression reduces to its concrete
literal runs for any pattern free of digits and dots. -/
lemma countOcc_filter_complex (vw vh : Nat) (f : String)
    (hf : ∀ c ∈ f.data, c.isDigit = true ∨ c = '.') (hfne : f.data ≠ [])
    (pat : List Char) (hpat : pat ≠ [])
    (hp : ∀ c ∈ pat, c.isDigit = false ∧ c ≠ '.') :
    countOcc pat (filter_complex vw vh f).data =
      ((mergedRuns (fcPieces vw vh f)).map (countOcc pat)).sum := by
  rw [filter_complex_data]
  exact countOcc_renderPieces pat hpat _ (fcPieces_num_ok vw vh f hf hfne pat hp)

/-- The concrete literal runs of the filter expression (what remains
between the rendered cell dimensions and frame rate). -/
def fcRuns : List (List Char) :=
  ["[0:v]scale=".data, ":".data,
    ":force_original_aspect_ratio=decrease,pad=".data, ":".data,
    ":(ow-iw)/2:(oh-ih)/2,setpts=PTS-STARTPTS,fps=fps=".data,
    ",fifo[vid1]; [1:v]scale=".data, ":".data,
    ":force_original_aspect_ratio=decrease,pad=".data, ":".data,
    ":(ow-iw)/2:(oh-ih)/2,setpts=PTS-STARTPTS,fps=fps=".data,
    ",fifo[vid2]; [2:v]scale=".data, ":".data,
    ":force_original_aspect_ratio=decrease,pad=".data, ":".data,
    ":(ow-iw)/2:(oh-ih)/2,setpts=PTS-STARTPTS,fps=fps=".data,
    ",fifo[vid3]; [3:v]scale=".data, ":".data,
    ":force_original_aspect_ratio=decrease,pad=".data, ":".data,
    ":(ow-iw)/2:(oh-ih)/2,setpts=PTS-STARTPTS,fps=fps=".data,
    ",fifo[vid4]; [vid1][vid2]hstack=inputs=2[top]; [vid3][vid4]hstack=inputs=2[bottom]; [top][bottom]vstack=inputs=2[final]".data]

set_option maxRecDepth 100000 in
lemma mergedRuns_fcPieces (vw vh : Nat) (f : String) :
    mergedRuns (fcPieces vw vh f) = fcRuns := rfl

/- ### Per-segment label extraction lemmas -/

lemma segReads_cell1 (vw vh : Nat) (f label : String) :
    segReads (cell_filter (scale_pad vw vh) f "0:v" label) = ["0:v"] := rfl

lemma segReads_cell2 (vw vh : Nat) (f label : String) :
    segReads (cell_filter (scale_pad vw vh) f "1:v" label) = ["1:v"] := rfl

lemma segReads_cell3 (vw vh : Nat) (f label : String) :
    segReads (cell_filter (scale_pad vw vh) f "2:v" label) = ["2:v"] := rfl

lemma segReads_cell4 (vw vh : Nat) (f label : String) :
    segReads (cell_filter (scale_pad vw vh) f "3:v" label) = ["3:v"] := rfl

lemma segWrites_cell1 (sp f input : String) :
    segWrites (cell_filter sp f input "vid1") = ["vid1"] := by
  have h1 : ("];".data).reverse = [';', ']'] := rfl
  have h2 : ("vid1".data).reverse = ['1', 'd', 'i', 'v'] := rfl
  have h3 : (",fifo[".data).reverse = ['[', 'o', 'f', 'i', 'f', ','] := rfl
  simp [segWrites, cell_filter, String.data_append, List.reverse_append, h1, h2, h3,
    List.cons_append, dropSemi, wgo]
  rfl

lemma segWrites_cell2 (sp f input : String) :
    segWrites (cell_filter sp f input "vid2") = ["vid2"] := by
  have h1 : ("];".data).reverse = [';', ']'] := rfl
  have h2 : ("vid2".data).reverse = ['2', 'd', 'i', 'v'] := rfl
  have h3 : (",fifo[".data).reverse = ['[', 'o', 'f', 'i', 'f', ','] := rfl
  simp [segWrites, cell_filter, String.data_append, List.reverse_append, h1, h2, h3,
    List.cons_append, dropSemi, wgo]
  rfl

lemma segWrites_cell3 (sp f input : String) :
    segWrites (cell_filter sp f input "vid3") = ["vid3"] := by
  have h1 : ("];".data).reverse = [';', ']'] := rfl
  have h2 : ("vid3".data).reverse = ['3', 'd', 'i', 'v'] := rfl
  have h3 : (",fifo[".data).reverse = ['[', 'o', 'f', 'i', 'f', ','] := rfl
  simp [segWrites, cell_filter, String.data_append, List.reverse_append, h1, h2, h3,
    List.cons_append, dropSemi, wgo]
  rfl

lemma segWrites_cell4 (sp f input : String) :
    segWrites (cell_filter sp f input "vid4") = ["vid4"] := by
  have h1 : ("];".data).reverse = [';', ']'] := rfl
  have h2 : ("vid4".data).reverse = ['4', 'd', 'i', 'v'] := rfl
  have h3 : (",fifo[".data).reverse = ['[', 'o', 'f', 'i', 'f', ','] := rfl
  simp [segWrites, cell_filter, String.data_append, List.reverse_append, h1, h2, h3,
    List.cons_append, dropSemi, wgo]
  rfl

lemma segWrites_hstack_top : segWrites "[vid1][vid2]hstack=inputs=2[top];" = ["top"] := rfl

lemma segWrites_hstack_bottom :
    segWrites "[vid3][vid4]hstack=inputs=2[bottom];" = ["bottom"] := rfl

lemma segWrites_vstack : segWrites "[top][bottom]vstack=inputs=2[final]" = ["final"] := rfl

/-- The per-segment read labels of the filter list: each cell segment
reads its own input stream, each stack reads the two labels its inputs
wrote. -/
lemma filters_map_segReads (vw vh : Nat) (f : String) :
    (filters vw vh f).map segReads =
      [["0:v"], ["1:v"], ["2:v"], ["3:v"], ["vid1", "vid2"], ["vid3", "vid4"],
        ["top", "bottom"]] := by
  simp [filters, videos, segReads_cell1, segReads_cell2, segReads_cell3, segReads_cell4]
  exact ⟨rfl, rfl, rfl⟩

/-- The per-segment write labels of the filter list: the four cell labels,
top, bottom, and final, each written by exactly one segment. -/
lemma filters_map_segWrites (vw vh : Nat) (f : String) :
    (filters vw vh f).map segWrites =
      [["vid1"], ["vid2"], ["vid3"], ["vid4"], ["top"], ["bottom"], ["final"]] := by
  simp [filters, videos, segWrites_cell1, segWrites_cell2, segWrites_cell3,
    segWrites_cell4, segWrites_hstack_top, segWrites_hstack_bottom, segWrites_vstack]

/- ### Claims -/

/-- C1: for every requested duration and probed durations, the effective
output duration equals min(requested, max of the four input durations);
it never exceeds the maximum input duration (no padding or looping), and
on the spec examples: durations [10,20,15,5] with requested 60 give 20,
and all-zero durations give 0. -/
theorem C1_output_duration_is_min :
    (∀ duration d1 d2 d3 d4 : Nat,
        output_duration duration (max_input_duration d1 d2 d3 d4) =
          min duration (max_input_duration d1 d2 d3 d4)) ∧
    (∀ duration maxInDur : Nat, output_duration duration maxInDur ≤ maxInDur) ∧
    output_duration 60 (max_input_duration 10 20 15 5) = 20 ∧
    output_duration 60 (max_input_duration 0 0 0 0) = 0 := by
  refine ⟨fun duration d1 d2 d3 d4 => ?_, fun duration maxInDur => ?_, by decide, by decide⟩
  · unfold output_duration
    rcases Nat.lt_or_ge duration (max_input_duration d1 d2 d3 d4) with h | h
    · rw [if_pos h, min_eq_left h.le]
    · rw [if_neg (Nat.not_lt.mpr h), min_eq_right h]
  · unfold output_duration
    split <;> omega

/-- C2: for finite probed rates, the effective frame rate equals
min(max of the four rates, cap), and a rate that ties the cap exactly is
kept (the cap value is used, not an error). -/
theorem C2_effective_rate_is_min_cap :
    (∀ q1 q2 q3 q4 c : ℚ,
        max_input_fps (.fin q1) (.fin q2) (.fin q3) (.fin q4) (.fin c) =
          .fin (min (max (max (max q1 q2) q3) q4) c)) ∧
    (∀ q1 q2 q3 q4 c : ℚ, max (max (max q1 q2) q3) q4 = c →
        max_input_fps (.fin q1) (.fin q2) (.fin q3) (.fin q4) (.fin c) = .fin c) := by
  refine ⟨max_input_fps_fin, fun q1 q2 q3 q4 c h => ?_⟩
  rw [max_input_fps_fin, h, min_self]

/-- Witness for C2 at the spec scenario: rates 24, 30, 60, 15 with cap 30
give rate 30, and a tie at the cap (all rates 25, cap 25) keeps 25. -/
theorem C2_effective_rate_is_min_cap_witness :
    max_input_fps (.fin 24) (.fin 30) (.fin 60) (.fin 15) (.fin 30) =
        .fin (min (max (max (max (24:ℚ) 30) 60) 15) 30) ∧
    max_input_fps (.fin 25) (.fin 25) (.fin 25) (.fin 25) (.fin 25) = .fin 25 := by
  exact ⟨C2_effective_rate_is_min_cap.1 24 30 60 15 30,
    C2_effective_rate_is_min_cap.2 25 25 25 25 25 (by simp)⟩

/-- C5: per-cell dimensions are the output dimensions divided by 2 with
truncating Nat division, with no parity validation: 1920x1080 gives
960x540, and odd width 1921 gives 960 (no error is possible since the
planner is total). -/
theorem C5_cell_dimensions_truncating_halves :
    video_width 1920 = 960 ∧ video_height 1080 = 540 ∧ video_width 1921 = 960 ∧
    (∀ w, video_width w = w / 2) ∧ (∀ h, video_height h = h / 2) ∧
    (∀ w, 2 * video_width w ≤ w ∧ w ≤ 2 * video_width w + 1) := by
  refine ⟨by decide, by decide, by decide, fun w => rfl, fun h => rfl, fun w => ?_⟩
  unfold video_width
  omega

/-- C7 counterexample: the claim asserts positive per-cell dimensions for
every output width, but output width 1 yields cell width 1 / 2 = 0. -/
theorem C7_counterexample_width_one : ¬ 0 < video_width 1 := by decide

/-- C7 amended: for every GridPlan whose output dimensions are at least 2
and whose cap and maximal probed rate are positive, the per-cell
dimensions are positive and the effective frame rate is a positive finite
rational. -/
theorem C7_amended_invariants (output_width output_height : Nat) (q1 q2 q3 q4 c : ℚ)
    (hw : 2 ≤ output_width) (hh : 2 ≤ output_height) (hc : 0 < c)
    (hr : 0 < max (max (max q1 q2) q3) q4) :
    0 < video_width output_width ∧ 0 < video_height output_height ∧
    ∃ r : ℚ, max_input_fps (.fin q1) (.fin q2) (.fin q3) (.fin q4) (.fin c) = .fin r ∧
      0 < r := by
  refine ⟨?_, ?_, min (max (max (max q1 q2) q3) q4) c, max_input_fps_fin q1 q2 q3 q4 c,
    lt_min hr hc⟩
  · unfold video_width; omega
  · unfold video_height; omega

/-- Witness for the amended C7 at output 1920x1080, rates 24, 30, 60, 15
and cap 30. -/
theorem C7_amended_invariants_witness :
    0 < video_width 1920 ∧ 0 < video_height 1080 ∧
    ∃ r : ℚ, max_input_fps (.fin 24) (.fin 30) (.fin 60) (.fin 15) (.fin 30) = .fin r ∧
      0 < r :=
  C7_amended_invariants 1920 1080 24 30 60 15 30 (by omega) (by omega) (by norm_num)
    ((by norm_num : (0:ℚ) < 15).trans_le (le_max_right _ _))

/-- C8: what the declared CLI surface actually provides.  The Args struct
of src/options.rs declares the four input flags, width and height
defaulting to 1920 and 1080, duration defaulting to 15, and the output
path defaulting to "output.mp4" - but no max frame-rate flag and no open
flag, even though main (src/main.rs) reads args.max_framerate and
args.open.  The code as committed is internally inconsistent. -/
theorem C8_args_fields_and_defaults :
    (∀ i1 i2 i3 i4 : String,
        (defaultArgs i1 i2 i3 i4).width = 1920 ∧
        (defaultArgs i1 i2 i3 i4).height = 1080 ∧
        (defaultArgs i1 i2 i3 i4).duration = 15 ∧
        (defaultArgs i1 i2 i3 i4).output_path = "output.mp4") ∧
    "max_framerate" ∈ mainFieldReads ∧ "open" ∈ mainFieldReads ∧
    "max_framerate" ∉ argsFieldNames ∧ "open" ∉ argsFieldNames := by
  refine ⟨fun i1 i2 i3 i4 => ⟨rfl, rfl, rfl, rfl⟩, ?_, ?_, ?_, ?_⟩ <;> decide

/-- C3: frame-rate strings of the form N slash D are split on the slash
and parsed as numerator divided by denominator ("30000/1001" gives
30000/1001, within 1e-5 of 29.97003, and "25/1" gives 25); a denominator
equal to zero yields a ProbeError; a slash-containing string that does
not split into exactly two parts yields a ProbeError; output with no
slash that parses as no number yields a ProbeError; and a two-part
slash string whose numerator or denominator does not parse as a number
yields the propagated float-parse ProbeError rather than a value. -/
theorem C3_framerate_parsing :
    (∀ (s path : String) (a b : List Char) (qa qb : ℚ),
        (trimChars s.data).contains '/' = true →
        splitSlash (trimChars s.data) = [a, b] →
        parseF64Chars a = some (.fin qa) →
        parseF64Chars b = some (.fin qb) → qb ≠ 0 →
        get_video_framerate true s path = .ok (.fin (qa / qb))) ∧
    (∀ path : String,
        get_video_framerate true "30000/1001" path = .ok (.fin (30000 / 1001))) ∧
    |(30000 : ℚ) / 1001 - 2997003 / 100000| < 1 / 100000 ∧
    (∀ path : String, get_video_framerate true "25/1" path = .ok (.fin 25)) ∧
    (∀ (s path : String) (a b : List Char) (x y : FV),
        (trimChars s.data).contains '/' = true →
        splitSlash (trimChars s.data) = [a, b] →
        parseF64Chars a = some x → parseF64Chars b = some y → fvEqZero y = true →
        get_video_framerate true s path =
          .error ("Invalid frame rate denominator in " ++ path)) ∧
    (∀ s path : String,
        (trimChars s.data).contains '/' = true →
        (splitSlash (trimChars s.data)).length ≠ 2 →
        get_video_framerate true s path =
          .error ("Invalid frame rate format: " ++ List.asString (trimChars s.data))) ∧
    (∀ s path : String,
        (trimChars s.data).contains '/' = false →
        parseF64Chars (trimChars s.data) = none →
        get_video_framerate true s path = .error "invalid float literal") ∧
    (∀ (s path : String) (a b : List Char),
        (trimChars s.data).contains '/' = true →
        splitSlash (trimChars s.data) = [a, b] →
        parseF64Chars a = none →
        get_video_framerate true s path = .error "invalid float literal") ∧
    (∀ (s path : String) (a b : List Char) (x : FV),
        (trimChars s.data).contains '/' = true →
        splitSlash (trimChars s.data) = [a, b] →
        parseF64Chars a = some x → parseF64Chars b = none →
        get_video_framerate true s path = .error "invalid float literal") := by
  refine ⟨?_, ?_, ?_, ?_, ?_, ?_, ?_, ?_, ?_⟩
  · intro s path a b qa qb hc hsp ha hb hq
    have hm : '/' ∈ trimChars s.data := by simpa using hc
    simp [get_video_framerate, fvEqZero, fvDiv, hm, hsp, ha, hb, hq]
  · intro path
    have h0 : get_video_framerate true "30000/1001" path =
        (if fvEqZero (.fin (decValue false 1001 0 0)) = true
          then .error ("Invalid frame rate denominator in " ++ path)
          else .ok (fvDiv (.fin (decValue false 30000 0 0))
            (.fin (decValue false 1001 0 0)))) := rfl
    have hden : decValue false 1001 0 0 = 1001 := by norm_num [decValue]
    have hnum : decValue false 30000 0 0 = 30000 := by norm_num [decValue]
    rw [h0, hden, hnum, if_neg (by norm_num [fvEqZero])]
    norm_num [fvDiv]
  · rw [abs_sub_lt_iff]
    constructor <;> norm_num
  · intro path
    have h0 : get_video_framerate true "25/1" path =
        (if fvEqZero (.fin (decValue false 1 0 0)) = true
          then .error ("Invalid frame rate denominator in " ++ path)
          else .ok (fvDiv (.fin (decValue false 25 0 0))
            (.fin (decValue false 1 0 0)))) := rfl
    have hden : decValue false 1 0 0 = 1 := by norm_num [decValue]
    have hnum : decValue false 25 0 0 = 25 := by norm_num [decValue]
    rw [h0, hden, hnum, if_neg (by norm_num [fvEqZero])]
    norm_num [fvDiv]
  · intro s path a b x y hc hsp ha hb hz
    have hm : '/' ∈ trimChars s.data := by simpa using hc
    simp [get_video_framerate, hm, hsp, ha, hb, hz]
  · intro s path hc hl
    have hm : '/' ∈ trimChars s.data := by simpa using hc
    rcases hsp : splitSlash (trimChars s.data) with _ | ⟨a, _ | ⟨b, _ | ⟨c, rest⟩⟩⟩
    · simp [get_video_framerate, hm, hsp]
    · simp [get_video_framerate, hm, hsp]
    · rw [hsp] at hl
      simp at hl
    · simp [get_video_framerate, hm, hsp]
  · intro s path hc hp
    have hm : '/' ∉ trimChars s.data := by simpa using hc
    simp [get_video_framerate, hm, hp]
  · intro s path a b hc hsp ha
    have hm : '/' ∈ trimChars s.data := by simpa using hc
    simp [get_video_framerate, hm, hsp, ha]
  · intro s path a b x hc hsp ha hb
    have hm : '/' ∈ trimChars s.data := by simpa using hc
    simp [get_video_framerate, hm, hsp, ha, hb]

/-- Witness for C3 at the concrete inputs "25/0" (zero denominator),
"1/2/3" (three slash-separated parts), "abc" (no number), "abc/def"
(unparseable numerator), and "1/x" (unparseable denominator). -/
theorem C3_framerate_parsing_witness :
    get_video_framerate true "25/0" "p" = .error "Invalid frame rate denominator in p" ∧
    get_video_framerate true "1/2/3" "p" = .error "Invalid frame rate format: 1/2/3" ∧
    get_video_framerate true "abc" "p" = .error "invalid float literal" ∧
    get_video_framerate true "abc/def" "p" = .error "invalid float literal" ∧
    get_video_framerate true "1/x" "p" = .error "invalid float literal" := by
  refine ⟨?_, ?_, ?_, ?_, ?_⟩
  · have h := C3_framerate_parsing.2.2.2.2.1 "25/0" "p" ['2', '5'] ['0']
      (.fin (decValue false 25 0 0)) (.fin (decValue false 0 0 0)) rfl rfl rfl rfl
      (by simp [fvEqZero]; norm_num [decValue])
    rw [h]
    rfl
  · have h := C3_framerate_parsing.2.2.2.2.2.1 "1/2/3" "p" rfl (by decide)
    rw [h]
    rfl
  · exact C3_framerate_parsing.2.2.2.2.2.2.1 "abc" "p" rfl rfl
  · exact C3_framerate_parsing.2.2.2.2.2.2.2.1 "abc/def" "p" ['a', 'b', 'c']
      ['d', 'e', 'f'] rfl rfl rfl
  · exact C3_framerate_parsing.2.2.2.2.2.2.2.2 "1/x" "p" ['1'] ['x']
      (.fin (decValue false 1 0 0)) rfl rfl rfl rfl

/-- C9 counterexample: the duration string "-2.5" parses to the value
-5/2 whose floor is -3, yet get_video_duration returns 0, so the result
is not the floor of every parsed value. -/
theorem C9_counterexample_negative_duration :
    get_video_duration true "-2.5" "p" = .ok 0 ∧ (⌊(-5 / 2 : ℚ)⌋ = -3) ∧
      ((-3 : ℤ) ≠ 0) := by
  refine ⟨?_, ?_, by decide⟩
  · have h0 : get_video_duration true "-2.5" "p" =
        .ok (fvAsU32 (fvFloor (.fin (decValue true 25 1 0)))) := rfl
    have hq : decValue true 25 1 0 = -5 / 2 := by norm_num [decValue]
    have hf : ⌊(-5 / 2 : ℚ)⌋ = -3 := by
      rw [Int.floor_eq_iff]
      norm_num
    rw [h0, hq]
    have h5 : fvFloor (FV.fin (-5 / 2 : ℚ)) = FV.fin ((-3 : ℤ) : ℚ) := by
      simp only [fvFloor, hf]
    rw [h5]
    simp only [fvAsU32, Int.floor_intCast]
    rfl
  · rw [Int.floor_eq_iff]
    norm_num

/-- C9 amended: for every probe output whose trimmed text parses to a
finite value q with 0 ≤ q < 2^32, get_video_duration returns the floor
of q (as a natural number); values outside that range are saturated by
the u32 cast instead. -/
theorem C9_amended_floor_in_range (s path : String) (q : ℚ)
    (hp : parseF64Chars (trimChars s.data) = some (.fin q))
    (_h0 : 0 ≤ q) (h1 : q < 2 ^ 32) :
    get_video_duration true s path = .ok (⌊q⌋.toNat) := by
  have hstep : get_video_duration true s path =
      (match parseF64Chars (trimChars s.data) with
        | none => .error "invalid float literal"
        | some dur_f64 => .ok (fvAsU32 (fvFloor dur_f64))) := rfl
  rw [hstep, hp]
  simp only [fvFloor, fvAsU32, Int.floor_intCast]
  have hle : (⌊q⌋ : ℚ) ≤ q := Int.floor_le q
  have h2 : (⌊q⌋ : ℚ) < 2 ^ 32 := lt_of_le_of_lt hle h1
  have hlt : ⌊q⌋ < 2 ^ 32 := by exact_mod_cast h2
  have h3 : (2 : ℤ) ^ 32 = 4294967296 := by norm_num
  have h4 : (2 : ℕ) ^ 32 - 1 = 4294967295 := by norm_num
  rw [h3] at hlt
  rw [h4]
  congr 1
  omega

/-- Witness for the amended C9: the spec example "12.9" yields 12. -/
theorem C9_amended_floor_in_range_witness :
    get_video_duration true "12.9" "p" = .ok 12 := by
  have h := C9_amended_floor_in_range "12.9" "p" (decValue false 129 1 0) rfl
    (by norm_num [decValue]) (by norm_num [decValue])
  have h1 : decValue false 129 1 0 = 129 / 10 := by norm_num [decValue]
  have h2 : ⌊(129 / 10 : ℚ)⌋ = 12 := by
    rw [Int.floor_eq_iff]
    norm_num
  rw [h, h1, h2]
  rfl

/-- C10: a probed duration string parsing to a negative value yields 0
(the floored value is negative and the saturating u32 cast clamps it),
and one parsing to NaN also yields 0; in both cases the probe succeeds
with a non-negative integer rather than failing. -/
theorem C10_saturating_cast_to_zero :
    (∀ (s path : String) (q : ℚ),
        parseF64Chars (trimChars s.data) = some (.fin q) → q < 0 →
        get_video_duration true s path = .ok 0) ∧
    (∀ s path : String, parseF64Chars (trimChars s.data) = some .nan →
        get_video_duration true s path = .ok 0) := by
  constructor
  · intro s path q hp hq
    have hstep : get_video_duration true s path =
        (match parseF64Chars (trimChars s.data) with
          | none => .error "invalid float literal"
          | some dur_f64 => .ok (fvAsU32 (fvFloor dur_f64))) := rfl
    rw [hstep, hp]
    have hf : ⌊q⌋ < 0 := Int.floor_lt.mpr (by exact_mod_cast hq)
    simp only [fvFloor, fvAsU32, Int.floor_intCast]
    congr 1
    have h4 : (2 : ℕ) ^ 32 - 1 = 4294967295 := by norm_num
    rw [h4]
    omega
  · intro s path hp
    have hstep : get_video_duration true s path =
        (match parseF64Chars (trimChars s.data) with
          | none => .error "invalid float literal"
          | some dur_f64 => .ok (fvAsU32 (fvFloor dur_f64))) := rfl
    rw [hstep, hp]
    rfl

/-- Witness for C10 at the inputs "-3" and "NaN". -/
theorem C10_saturating_cast_to_zero_witness :
    get_video_duration true "-3" "p" = .ok 0 ∧
    get_video_duration true "NaN" "p" = .ok 0 :=
  ⟨C10_saturating_cast_to_zero.1 "-3" "p" (decValue true 3 0 0) rfl
      (by norm_num [decValue]),
    C10_saturating_cast_to_zero.2 "NaN" "p" rfl⟩

set_option maxHeartbeats 4000000 in
set_option maxRecDepth 100000 in
/-- C4: for every rendered frame rate consisting of digits and dots, the
filter expression has exactly 7 segments: 4 per-cell segments, each
reading one distinct input stream and applying scale ("scale=" occurs 4
times), pad (",pad=" 4 times), timestamp reset and fps normalization
(",setpts=PTS-STARTPTS,fps=fps=" 4 times) and a fifo buffer (",fifo[" 4
times) and writing a unique cell label; exactly 2 horizontal-stack
segments ("hstack=" occurs twice) and exactly 1 vertical-stack segment
("vstack=" once); the label final occurs exactly once in the whole
expression, as the write target of the vertical stack; and by the two
label maps every label is written by exactly one segment and read by
exactly one segment. -/
theorem C4_filter_graph_structure (vw vh : Nat) (f : String)
    (hf : ∀ c ∈ f.data, c.isDigit = true ∨ c = '.') (hfne : f.data ≠ []) :
    (filters vw vh f).length = 7 ∧
    (filters vw vh f).map segReads =
      [["0:v"], ["1:v"], ["2:v"], ["3:v"], ["vid1", "vid2"], ["vid3", "vid4"],
        ["top", "bottom"]] ∧
    (filters vw vh f).map segWrites =
      [["vid1"], ["vid2"], ["vid3"], ["vid4"], ["top"], ["bottom"], ["final"]] ∧
    (((filters vw vh f).map segWrites).flatten).Nodup ∧
    countOcc "scale=".data (filter_complex vw vh f).data = 4 ∧
    countOcc ",pad=".data (filter_complex vw vh f).data = 4 ∧
    countOcc ",setpts=PTS-STARTPTS,fps=fps=".data (filter_complex vw vh f).data = 4 ∧
    countOcc ",fifo[".data (filter_complex vw vh f).data = 4 ∧
    countOcc "hstack=".data (filter_complex vw vh f).data = 2 ∧
    countOcc "vstack=".data (filter_complex vw vh f).data = 1 ∧
    countOcc "[final]".data (filter_complex vw vh f).data = 1 := by
  refine ⟨rfl, filters_map_segReads vw vh f, filters_map_segWrites vw vh f, ?_,
    ?_, ?_, ?_, ?_, ?_, ?_, ?_⟩
  · rw [filters_map_segWrites vw vh f]
    decide
  all_goals
    rw [countOcc_filter_complex vw vh f hf hfne _ (by decide) (by decide),
      mergedRuns_fcPieces vw vh f]
    decide

set_option maxHeartbeats 4000000 in
set_option maxRecDepth 100000 in
/-- Witness for C4 at cell dimensions 960x540 and rendered rate "30". -/
theorem C4_filter_graph_structure_witness :
    (filters 960 540 "30").length = 7 ∧
    (filters 960 540 "30").map segReads =
      [["0:v"], ["1:v"], ["2:v"], ["3:v"], ["vid1", "vid2"], ["vid3", "vid4"],
        ["top", "bottom"]] ∧
    (filters 960 540 "30").map segWrites =
      [["vid1"], ["vid2"], ["vid3"], ["vid4"], ["top"], ["bottom"], ["final"]] ∧
    (((filters 960 540 "30").map segWrites).flatten).Nodup ∧
    countOcc "scale=".data (filter_complex 960 540 "30").data = 4 ∧
    countOcc ",pad=".data (filter_complex 960 540 "30").data = 4 ∧
    countOcc ",setpts=PTS-STARTPTS,fps=fps=".data (filter_complex 960 540 "30").data = 4 ∧
    countOcc ",fifo[".data (filter_complex 960 540 "30").data = 4 ∧
    countOcc "hstack=".data (filter_complex 960 540 "30").data = 2 ∧
    countOcc "vstack=".data (filter_complex 960 540 "30").data = 1 ∧
    countOcc "[final]".data (filter_complex 960 540 "30").data = 1 :=
  C4_filter_graph_structure 960 540 "30" (by decide) (by decide)

/-- C6: if any of the eight probe invocations fails, create_video_grid
returns that first error unchanged and the ffmpeg invocation is never
performed. -/
theorem C6_probe_failure_aborts (env : Env)
    (duration output_width output_height : Nat) (max_framerate : FV) (e : String)
    (h : firstProbeError env = some e) :
    (create_video_grid env duration output_width output_height max_framerate).2 =
        .error e ∧
    ∀ (fc : String) (t : Nat),
      Call.ffmpeg fc t ∉
        (create_video_grid env duration output_width output_height max_framerate).1 := by
  unfold firstProbeError at h
  unfold create_video_grid
  cases h0 : run_framerate env 0 with
  | error e0 =>
    simp only [h0] at h ⊢
    injection h with he
    subst he
    exact ⟨rfl, by intro fc t; simp⟩
  | ok v0 =>
  simp only [h0] at h ⊢
  cases h1 : run_framerate env 1 with
  | error e1 =>
    simp only [h1] at h ⊢
    injection h with he
    subst he
    exact ⟨rfl, by intro fc t; simp⟩
  | ok v1 =>
  simp only [h1] at h ⊢
  cases h2 : run_framerate env 2 with
  | error e2 =>
    simp only [h2] at h ⊢
    injection h with he
    subst he
    exact ⟨rfl, by intro fc t; simp⟩
  | ok v2 =>
  simp only [h2] at h ⊢
  cases h3 : run_framerate env 3 with
  | error e3 =>
    simp only [h3] at h ⊢
    injection h with he
    subst he
    exact ⟨rfl, by intro fc t; simp⟩
  | ok v3 =>
  simp only [h3] at h ⊢
  cases h4 : run_duration env 0 with
  | error e4 =>
    simp only [h4] at h ⊢
    injection h with he
    subst he
    exact ⟨rfl, by intro fc t; simp⟩
  | ok v4 =>
  simp only [h4] at h ⊢
  cases h5 : run_duration env 1 with
  | error e5 =>
    simp only [h5] at h ⊢
    injection h with he
    subst he
    exact ⟨rfl, by intro fc t; simp⟩
  | ok v5 =>
  simp only [h5] at h ⊢
  cases h6 : run_duration env 2 with
  | error e6 =>
    simp only [h6] at h ⊢
    injection h with he
    subst he
    exact ⟨rfl, by intro fc t; simp⟩
  | ok v6 =>
  simp only [h6] at h ⊢
  cases h7 : run_duration env 3 with
  | error e7 =>
    simp only [h7] at h ⊢
    injection h with he
    subst he
    exact ⟨rfl, by intro fc t; simp⟩
  | ok v7 =>
  simp only [h7] at h
  exact Option.noConfusion h

/-- Witness for C6: an environment whose first framerate probe fails with
the message "boom"; the run returns that error and performs no ffmpeg
invocation. -/
theorem C6_probe_failure_aborts_witness :
    (create_video_grid
        ⟨fun _ => .error "boom", fun _ => .ok (true, "30"), fun _ => "vid",
          fun _ => "30", true⟩ 15 1920 1080 (.fin 30)).2 = .error "boom" ∧
    Call.ffmpeg "f" 0 ∉
      (create_video_grid
          ⟨fun _ => .error "boom", fun _ => .ok (true, "30"), fun _ => "vid",
            fun _ => "30", true⟩ 15 1920 1080 (.fin 30)).1 := by
  have h := C6_probe_failure_aborts
    ⟨fun _ => .error "boom", fun _ => .ok (true, "30"), fun _ => "vid",
      fun _ => "30", true⟩ 15 1920 1080 (.fin 30) "boom" rfl
  exact ⟨h.1, h.2 "f" 0⟩

end Vidgrid
